import Mathlib

/-!
Shallow embedding of the search-provider logic of
`gnome-shell-ext-codeopenrecent` (`src/extension.js`).

The embedding models the history-store reader, the entry matcher and the
cancellable search pipeline of the `SearchProvider` class:

* `matchEntries` embeds the `while (result.entries.length > 0)` loop of
  `_getHistoryEntries` (extension.js lines 220-243): filtering records on
  `folderUri` and search terms, and normalizing matches into history
  entries.
* `getHistoryEntries` embeds the whole `_getHistoryEntries` method
  (lines 189-246) as a function of an abstract store state, recording the
  cache mutation and whether the database connection was opened and closed.
* `getInitialResultSet` (lines 261-280), `getSubsearchResultSet`
  (lines 300-305) and `getResultMetas` (lines 142-182) embed the
  promise-based provider methods; Gio.Cancellable interaction is modelled
  by booleans saying when the token fires, matching the single-threaded
  GJS execution order.
-/

set_option autoImplicit false

namespace CodeOpenRecent

/-- JS `haystack.includes(needle)` at one position: `needle` starts `haystack`. -/
def matchHere : List Char → List Char → Bool
  | [], _ => true
  | _ :: _, [] => false
  | a :: as, b :: bs => a == b && matchHere as bs

/-- JS `haystack.includes(needle)` over `List Char`. -/
def includesChars (needle : List Char) : List Char → Bool
  | [] => needle.isEmpty
  | c :: rest => matchHere needle (c :: rest) || includesChars needle rest

/-- JS `s.includes(t)`: case-sensitive substring containment. -/
def strIncludes (s t : String) : Bool :=
  includesChars t.toList s.toList

/-- A raw history record read from the `history.recentlyOpenedPathsList`
JSON blob.  Every field is optional: `none` models an absent JS property,
`some ""` a property that is present but holds the empty string.
Records without `folderUri` (e.g. `fileUri` or `workspace` records) are
the non-folder kinds. -/
structure RawRecord where
  folderUri : Option String := none
  label : Option String := none
  remoteAuthority : Option String := none
  fileUri : Option String := none
deriving Repr, DecidableEq

/-- A normalized history entry (the `HistoryEntry` typedef, extension.js
lines 30-37), as pushed onto `this._historyEntries`. -/
structure HistoryEntry where
  uri : String
  title : String
  remote : String
  remoteType : String
deriving Repr, DecidableEq

/-- JS `v || d` on an optional string property: the fallback fires when the
property is absent (`undefined`) or falsy (the empty string). -/
def jsOrElse (v : Option String) (d : String) : String :=
  match v with
  | some s => if s = "" then d else s
  | none => d

/-- JS truthiness of an optional string property: present and non-empty. -/
def jsTruthy (v : Option String) : Bool :=
  match v with
  | some s => !(s == "")
  | none => false

/-- The inner term loop of `_getHistoryEntries` (lines 223-233): a record
matches iff some term is a substring of `label` (when present) or of
`folderUri`. -/
def recordMatches (searchTerms : List String) (entry : RawRecord) (fUri : String) : Bool :=
  searchTerms.any fun term =>
    (match entry.label with
     | some l => strIncludes l term
     | none => false)
    || strIncludes fUri term

/-- The object literal pushed at lines 235-240:
`{uri, title: label || folderUri, remote: remoteAuthority || "local",
remoteType: remoteAuthority ? "remote" : "local"}`. -/
def normalizeEntry (fUri : String) (entry : RawRecord) : HistoryEntry :=
  { uri := fUri
    title := jsOrElse entry.label fUri
    remote := jsOrElse entry.remoteAuthority "local"
    remoteType := if jsTruthy entry.remoteAuthority then "remote" else "local" }

/-- The `while`/`shift` loop of `_getHistoryEntries` (lines 220-243):
consume the records in order, keep those with a `folderUri` field whose
inclusion flag becomes true, normalized. -/
def matchEntries (searchTerms : List String) : List RawRecord → List HistoryEntry
  | [] => []
  | entry :: rest =>
    match entry.folderUri with
    | some fUri =>
      if recordMatches searchTerms entry fUri then
        normalizeEntry fUri entry :: matchEntries searchTerms rest
      else
        matchEntries searchTerms rest
    | none => matchEntries searchTerms rest

/-- One matching-step of `matchEntries` as an `Option`, for the
filterMap characterization. -/
def toEntry? (searchTerms : List String) (entry : RawRecord) : Option HistoryEntry :=
  match entry.folderUri with
  | some fUri =>
    if recordMatches searchTerms entry fUri then some (normalizeEntry fUri entry)
    else none
  | none => none

/-- Normalization of a record when it is a folder record, ignoring terms:
the records a term-free pass would keep. -/
def folderEntry? (entry : RawRecord) : Option HistoryEntry :=
  match entry.folderUri with
  | some fUri => some (normalizeEntry fUri entry)
  | none => none

/-- Abstract state of the SQLite store as `_getHistoryEntries` can observe
it: the connection open fails; the query returns no row; the row's value is
not valid JSON; or the row parses to a record list. -/
inductive StoreState where
  | openFails
  | noRow
  | rowMalformed
  | row (records : List RawRecord)
deriving Repr, DecidableEq

/-- Result of a JS async function body: normal return or thrown exception
(a rejected promise). -/
inductive JsOutcome (α : Type) where
  | ret (a : α)
  | thrown
deriving Repr, DecidableEq

/-- Observable effects of one `_getHistoryEntries` call: the value of
`this._historyEntries` afterwards, whether `conn.open()` succeeded, whether
`conn.close()` ran, and the returned/thrown outcome. -/
structure HistoryCallResult where
  cache : List HistoryEntry
  connOpened : Bool
  connClosed : Bool
  outcome : JsOutcome (List HistoryEntry)
deriving Repr, DecidableEq

/-- `_getHistoryEntries` (extension.js lines 189-246) over the abstract
store, starting from cache `cache` (the previous `this._historyEntries`):

* open failure is caught, logged, and `[]` is returned with the cache
  untouched (lines 201-204);
* on success the cache is emptied first (line 207, before the query);
* a no-row result returns `[]` at line 215, before `conn.close()` runs;
* a JSON.parse failure at line 217 throws past the method, also before
  `conn.close()`;
* otherwise `conn.close()` runs (line 218) and the matching loop fills the
  cache, which is also the return value (line 245). -/
def getHistoryEntries (store : StoreState) (searchTerms : List String)
    (cache : List HistoryEntry) : HistoryCallResult :=
  match store with
  | .openFails =>
    { cache := cache, connOpened := false, connClosed := false, outcome := .ret [] }
  | .noRow =>
    { cache := [], connOpened := true, connClosed := false, outcome := .ret [] }
  | .rowMalformed =>
    { cache := [], connOpened := true, connClosed := false, outcome := .thrown }
  | .row records =>
    let newCache := matchEntries searchTerms records
    { cache := newCache, connOpened := true, connClosed := true, outcome := .ret newCache }

/-- How the promise of a search method settles. -/
inductive SearchOutcome where
  | resolved (ids : List String)
  | rejectedSearchCancelled
deriving Repr, DecidableEq

/-- `getInitialResultSet` (extension.js lines 261-280).  `cancelledDuring`
says whether the cancellable fires before the `.then`/`.catch` callbacks
run; the connected handler then rejects with `Error("Search Cancelled")`
(line 265) and the guarded `resolve` calls are skipped.  The call to
`_getHistoryEntries` has already run (no `await` precedes it), so the cache
mutation happens either way.  Returns the new cache and the settled
outcome. -/
def getInitialResultSet (store : StoreState) (terms : List String)
    (cache : List HistoryEntry) (cancelledDuring : Bool) :
    List HistoryEntry × SearchOutcome :=
  let call := getHistoryEntries store terms cache
  if cancelledDuring then
    (call.cache, .rejectedSearchCancelled)
  else
    match call.outcome with
    | .ret entries => (call.cache, .resolved (entries.map HistoryEntry.uri))
    | .thrown => (call.cache, .resolved [])

/-- Observable behaviour of one `getSubsearchResultSet` call. -/
structure SubsearchResult where
  threw : Bool
  storeAccessed : Bool
  delegated : Option (List HistoryEntry × SearchOutcome)
deriving Repr, DecidableEq

/-- `getSubsearchResultSet` (extension.js lines 300-305): when the
cancellable is already cancelled it throws `Error("Search Cancelled")`
synchronously, before any store access; otherwise it returns
`this.getInitialResultSet(terms, cancellable)` — the `results` argument is
never consulted. -/
def getSubsearchResultSet (store : StoreState) (results terms : List String)
    (cache : List HistoryEntry) (alreadyCancelled cancelledDuring : Bool) :
    SubsearchResult :=
  if alreadyCancelled then
    { threw := true, storeAccessed := false, delegated := none }
  else
    { threw := false, storeAccessed := true,
      delegated := some (getInitialResultSet store terms cache cancelledDuring) }

/-- The result-meta object built at lines 162-174 (`createIcon` is a
GNOME-Shell actor factory with no observable data, omitted). -/
structure ResultMeta where
  id : String
  name : String
  description : String
  clipboardText : String
deriving Repr, DecidableEq

/-- The meta literal of lines 162-174 for one identifier and its cache
hit. -/
def mkMeta (identifier : String) (h : HistoryEntry) : ResultMeta :=
  { id := identifier, name := h.title, description := h.uri, clipboardText := h.uri }

/-- The `for (const identifier of results)` loop of `getResultMetas`
(lines 153-177): look each identifier up with `Array.find` on the cache,
skip misses, push one meta per hit. -/
def resolveMetasLoop (cache : List HistoryEntry) : List String → List ResultMeta
  | [] => []
  | identifier :: rest =>
    match cache.find? (fun entry => entry.uri == identifier) with
    | some h => mkMeta identifier h :: resolveMetasLoop cache rest
    | none => resolveMetasLoop cache rest

/-- How the `getResultMetas` promise settles. -/
inductive MetaOutcome where
  | resolved (metas : List ResultMeta)
  | rejectedOperationCancelled
deriving Repr, DecidableEq

/-- `getResultMetas` (extension.js lines 142-182): the connected handler
rejects with `Error("Operation Cancelled")` when the cancellable fires
(line 148), otherwise the loop's metas are resolved (line 180). -/
def getResultMetas (cache : List HistoryEntry) (results : List String)
    (cancelledDuring : Bool) : MetaOutcome :=
  if cancelledDuring then .rejectedOperationCancelled
  else .resolved (resolveMetasLoop cache results)

end CodeOpenRecent

namespace CodeOpenRecent

/-! ### Helper lemmas -/

theorem matchEntries_eq_filterMap (searchTerms : List String) (records : List RawRecord) :
    matchEntries searchTerms records = records.filterMap (toEntry? searchTerms) := by
  induction records with
  | nil => rfl
  | cons r rest ih =>
    simp only [matchEntries, toEntry?, List.filterMap_cons]
    cases r.folderUri with
    | none => exact ih
    | some f =>
      cases hm : recordMatches searchTerms r f <;> simp [hm, ih]

theorem length_filterMap_eq_countP {α β : Type} (f : α → Option β) (l : List α) :
    (l.filterMap f).length = l.countP fun a => (f a).isSome := by
  induction l with
  | nil => rfl
  | cons a rest ih =>
    rw [List.filterMap_cons, List.countP_cons]
    cases h : f a <;> simp [h, ih]

theorem filterMap_sublist_of_imp {α β : Type} (f g : α → Option β)
    (h : ∀ a b, f a = some b → g a = some b) (l : List α) :
    List.Sublist (l.filterMap f) (l.filterMap g) := by
  induction l with
  | nil => simp
  | cons a rest ih =>
    rw [List.filterMap_cons, List.filterMap_cons]
    cases hf : f a with
    | none =>
      cases g a with
      | none => exact ih
      | some b => exact ih.trans (List.sublist_cons_self b _)
    | some b =>
      rw [h a b hf]
      exact ih.cons₂ b

theorem toEntry?_imp_folderEntry? (searchTerms : List String) (r : RawRecord)
    (e : HistoryEntry) (h : toEntry? searchTerms r = some e) : folderEntry? r = some e := by
  cases hf : r.folderUri with
  | none => simp [toEntry?, hf] at h
  | some f =>
    cases hm : recordMatches searchTerms r f with
    | false => simp [toEntry?, hf, hm] at h
    | true =>
      simp only [toEntry?, hf, hm, if_true] at h
      simpa [folderEntry?, hf] using h

theorem resolveMetasLoop_map_id (cache : List HistoryEntry) (ids : List String) :
    (resolveMetasLoop cache ids).map ResultMeta.id =
      ids.filter fun i => (cache.find? fun e => e.uri == i).isSome := by
  induction ids with
  | nil => rfl
  | cons i rest ih =>
    simp only [resolveMetasLoop, List.filter_cons]
    cases h : cache.find? fun e => e.uri == i with
    | none => simp [h, ih]
    | some e => simp [h, ih, mkMeta]

theorem resolveMetasLoop_append (cache : List HistoryEntry) (ids1 ids2 : List String) :
    resolveMetasLoop cache (ids1 ++ ids2) =
      resolveMetasLoop cache ids1 ++ resolveMetasLoop cache ids2 := by
  induction ids1 with
  | nil => rfl
  | cons i rest ih =>
    simp only [List.cons_append, resolveMetasLoop]
    cases h : cache.find? fun e => e.uri == i <;> simp [h, ih]

theorem resolveMetasLoop_countP (cache : List HistoryEntry) (ids : List String)
    (i : String) :
    (resolveMetasLoop cache ids).countP (fun m => m.id == i) =
      if (cache.find? fun e => e.uri == i).isSome then ids.count i else 0 := by
  induction ids with
  | nil => simp [resolveMetasLoop]
  | cons j rest ih =>
    simp only [resolveMetasLoop]
    by_cases hji : j = i
    · subst hji
      cases hj : cache.find? fun e => e.uri == j with
      | none => simp [hj] at ih ⊢; simpa [List.count_cons] using ih
      | some h =>
        simp only [List.countP_cons, List.count_cons, hj, Option.isSome_some, if_true] at ih ⊢
        simp [mkMeta, ih, hj]
    · have hne : (j == i) = false := by simp [hji]
      cases hj : cache.find? fun e => e.uri == j with
      | none => simp [List.count_cons, hne, ih]
      | some h => simp [List.countP_cons, List.count_cons, hne, mkMeta, ih]

end CodeOpenRecent

namespace CodeOpenRecent

/-! ### Claim theorems -/

/-- C1 counterexample: a record carrying `folderUri` is NOT returned when
the search term set is empty — the matching step returns the empty list,
refuting the claim that all folder records are returned unfiltered. -/
theorem c1_counterexample :
    ({ folderUri := some "/home/u/proj" : RawRecord }).folderUri.isSome = true ∧
    matchEntries [] [{ folderUri := some "/home/u/proj" }] = [] :=
  ⟨rfl, rfl⟩

/-- C1 (amended): when the search term set is empty, the matching step
returns NO records at all — the inclusion flag starts `false` and the term
loop body never runs, so no record of R is kept, folder record or not. -/
theorem c1_empty_terms_returns_nothing (records : List RawRecord) :
    matchEntries [] records = [] := by
  induction records with
  | nil => rfl
  | cons r rest ih =>
    simp only [matchEntries]
    cases r.folderUri with
    | none => exact ih
    | some f => simpa [recordMatches] using ih

/-- C2 counterexample: with a store holding a matching folder record, an
initial search whose cancellable fires before completion settles as
`rejectedSearchCancelled`, not as `resolved []` as the claim states. -/
theorem c2_counterexample :
    getInitialResultSet (.row [{ folderUri := some "/home/u/proj" }]) ["proj"] [] true =
      ([{ uri := "/home/u/proj", title := "/home/u/proj", remote := "local",
          remoteType := "local" }],
       SearchOutcome.rejectedSearchCancelled) := by
  decide

/-- C2 (amended): for every store state, term list and prior cache, when the
cancellation token signals cancellation before the initial search completes,
the promise REJECTS with the `Search Cancelled` error raised by the
connected cancellation handler; it is never resolved with an empty list. -/
theorem c2_cancelled_initial_search_rejects (store : StoreState) (terms : List String)
    (cache : List HistoryEntry) :
    (getInitialResultSet store terms cache true).2 =
      SearchOutcome.rejectedSearchCancelled := by
  cases store <;> rfl

/-- C3: the history-store read leaks the connection on the no-row exit path
and on the JSON-parse-failure path: the connection is opened but
`conn.close()` never runs there (it is only reached on the successful row
path, where it does run). -/
theorem c3_connection_leak :
    (getHistoryEntries .noRow ["x"] []).connOpened = true ∧
    (getHistoryEntries .noRow ["x"] []).connClosed = false ∧
    (getHistoryEntries .rowMalformed ["x"] []).connOpened = true ∧
    (getHistoryEntries .rowMalformed ["x"] []).connClosed = false ∧
    (getHistoryEntries (.row [{ folderUri := some "/a" }]) ["a"] []).connClosed = true :=
  ⟨rfl, rfl, rfl, rfl, rfl⟩

/-- C4 counterexample: a search during which the store connection cannot be
opened resolves with no matches, yet the previous search's cache entry
survives — the cache is not replaced, refuting the claim that old matches
never survive a failing search. -/
theorem c4_counterexample :
    getInitialResultSet .openFails ["x"]
      [{ uri := "/old", title := "Old", remote := "local", remoteType := "local" }] false =
      ([{ uri := "/old", title := "Old", remote := "local", remoteType := "local" }],
       SearchOutcome.resolved []) :=
  rfl

/-- C4 (amended): the cache is fully replaced by a search exactly when the
store connection opens successfully (holding the new matches on a parsed
row, and the empty list on a no-row or malformed-JSON result); when the
connection cannot be opened, the previous search's cache survives
unchanged. -/
theorem c4_cache_replacement (store : StoreState) (terms : List String)
    (cache : List HistoryEntry) (cancelledDuring : Bool) :
    (getInitialResultSet store terms cache cancelledDuring).1 =
      (match store with
       | .openFails => cache
       | .row records => matchEntries terms records
       | .noRow => []
       | .rowMalformed => []) := by
  cases store <;> cases cancelledDuring <;> rfl

/-- C5 counterexample: two store records with the same `folderUri` both
enter the cache (the uri occurs twice), and metadata resolution returns the
FIRST-seen record's values (`name = "first proj"`), refuting both the
uniqueness invariant and the last-seen-wins claim. -/
theorem c5_counterexample :
    ((matchEntries ["proj"]
        [{ folderUri := some "/home/u/proj", label := some "first proj" },
         { folderUri := some "/home/u/proj", label := some "second proj" }]).map
      HistoryEntry.uri).count "/home/u/proj" = 2 ∧
    resolveMetasLoop
        (matchEntries ["proj"]
          [{ folderUri := some "/home/u/proj", label := some "first proj" },
           { folderUri := some "/home/u/proj", label := some "second proj" }])
        ["/home/u/proj"] =
      [{ id := "/home/u/proj", name := "first proj", description := "/home/u/proj",
         clipboardText := "/home/u/proj" }] := by
  decide

/-- C5 (amended): the cache keeps one entry per matching folder record with
no deduplication, so duplicate `folderUri` values in the store yield
duplicate cache entries; and metadata resolution for a uri uses the
first-seen cache entry (`Array.find`), not the last. -/
theorem c5_no_dedup_first_wins (searchTerms : List String) (records : List RawRecord)
    (cache : List HistoryEntry) (identifier : String) :
    (matchEntries searchTerms records).length =
      records.countP (fun r => (toEntry? searchTerms r).isSome) ∧
    resolveMetasLoop cache [identifier] =
      (match cache.find? (fun e => e.uri == identifier) with
       | some h => [mkMeta identifier h]
       | none => []) := by
  constructor
  · rw [matchEntries_eq_filterMap]
    exact length_filterMap_eq_countP _ _
  · simp only [resolveMetasLoop]

/-- C6 counterexample: a record whose `label` and `remoteAuthority` fields
are present but hold the empty string normalizes to `title = folderUri`,
`remote = "local"` and `remoteType = "local"`, refuting the claim that the
label falls back only when absent/nullish and that `remoteType = "remote"`
exactly when `remoteAuthority` is present. -/
theorem c6_counterexample :
    ({ folderUri := some "/a", label := some "", remoteAuthority := some "" :
        RawRecord }).label.isSome = true ∧
    ({ folderUri := some "/a", label := some "", remoteAuthority := some "" :
        RawRecord }).remoteAuthority.isSome = true ∧
    normalizeEntry "/a"
        { folderUri := some "/a", label := some "", remoteAuthority := some "" } =
      { uri := "/a", title := "/a", remote := "local", remoteType := "local" } := by
  decide

/-- C6 (amended): normalization follows JS truthiness, not presence:
`title = label` when the label is present and non-empty, else `folderUri`;
`remote = remoteAuthority` when present and non-empty, else `"local"`; and
`remoteType = "remote"` exactly when `remoteAuthority` is present and
non-empty, `"local"` otherwise. -/
theorem c6_normalization (fUri : String) (r : RawRecord) :
    (normalizeEntry fUri r).title =
      (match r.label with
       | some l => if l = "" then fUri else l
       | none => fUri) ∧
    (normalizeEntry fUri r).remote =
      (match r.remoteAuthority with
       | some s => if s = "" then "local" else s
       | none => "local") ∧
    (normalizeEntry fUri r).remoteType =
      (match r.remoteAuthority with
       | some s => if s = "" then "local" else "remote"
       | none => "local") := by
  refine ⟨rfl, rfl, ?_⟩
  simp only [normalizeEntry, jsTruthy]
  cases r.remoteAuthority with
  | none => rfl
  | some s => by_cases h : s = "" <;> simp [h]

/-- C7: a subsearch whose token is already cancelled at call time throws
synchronously (the `Search Cancelled` error) without any store access and
without delegating; otherwise it delegates to the initial-search pipeline
with the same terms, token and cache — the `results` argument
(`previousResults`) is ignored entirely. -/
theorem c7_subsearch (store : StoreState) (results terms : List String)
    (cache : List HistoryEntry) (cancelledDuring : Bool) :
    getSubsearchResultSet store results terms cache true cancelledDuring =
      { threw := true, storeAccessed := false, delegated := none } ∧
    getSubsearchResultSet store results terms cache false cancelledDuring =
      { threw := false, storeAccessed := true,
        delegated := some (getInitialResultSet store terms cache cancelledDuring) } :=
  ⟨rfl, rfl⟩

/-- C8: for all record sets and term sets, the matching step's output is a
subsequence (order-preserving sublist) of the normalized folder records of
the input, and deleting the non-folder records first does not change the
output — records without `folderUri` are dropped silently, never turned
into errors. -/
theorem c8_subsequence_of_folder_records (searchTerms : List String)
    (records : List RawRecord) :
    List.Sublist (matchEntries searchTerms records) (records.filterMap folderEntry?) ∧
    matchEntries searchTerms records =
      matchEntries searchTerms (records.filter fun r => r.folderUri.isSome) := by
  constructor
  · rw [matchEntries_eq_filterMap]
    exact filterMap_sublist_of_imp _ _ (toEntry?_imp_folderEntry? searchTerms) records
  · induction records with
    | nil => rfl
    | cons r rest ih =>
      cases hf : r.folderUri with
      | none => simp [matchEntries, hf, List.filter_cons, ih]
      | some f =>
        cases hm : recordMatches searchTerms r f <;>
          simp [matchEntries, hf, hm, List.filter_cons, ih]

/-- C9: metadata resolution with a non-cancelled token resolves with the
loop's metas; the result never holds more entries than identifiers were
requested, and the returned ids are exactly the requested identifiers that
hit the cache, in input order — cache misses are silently skipped and no id
absent from the cache ever appears. -/
theorem c9_resolve_metas (cache : List HistoryEntry) (results : List String) :
    getResultMetas cache results false =
      MetaOutcome.resolved (resolveMetasLoop cache results) ∧
    (resolveMetasLoop cache results).length ≤ results.length ∧
    (resolveMetasLoop cache results).map ResultMeta.id =
      results.filter (fun i => (cache.find? fun e => e.uri == i).isSome) := by
  refine ⟨rfl, ?_, resolveMetasLoop_map_id cache results⟩
  have h := congrArg List.length (resolveMetasLoop_map_id cache results)
  rw [List.length_map] at h
  rw [h]
  exact List.length_filter_le _ _

/-- C10: metadata resolution maps each occurrence of an identifier
independently — it distributes over concatenation of the request list, and
the number of returned metas carrying id `i` equals the number of
occurrences of `i` among the requested identifiers when `i` hits the cache
(and 0 when it misses): duplicates are not deduplicated. -/
theorem c10_duplicate_identifiers (cache : List HistoryEntry) (ids1 ids2 : List String)
    (i : String) :
    resolveMetasLoop cache (ids1 ++ ids2) =
      resolveMetasLoop cache ids1 ++ resolveMetasLoop cache ids2 ∧
    (resolveMetasLoop cache ids1).countP (fun m => m.id == i) =
      (if (cache.find? fun e => e.uri == i).isSome then ids1.count i else 0) :=
  ⟨resolveMetasLoop_append cache ids1 ids2, resolveMetasLoop_countP cache ids1 i⟩

end CodeOpenRecent
